import Mathlib

/-!
Shallow embedding of the fetch-and-persist scripts of the repository
(`pyalex-test.py`, `main.py`, `get-pubmed.py`) and of the analysis script
(`analyze_normalized_citations.py`), with theorems settling the spec claims.
-/

namespace AiMedicine

/-! ## `pyalex-test.py` : data model -/

/-- The nested `author` object of an OpenAlex authorship, read by
`pyalex-test.py` via `author.get("author", {}).get("display_name")` etc.;
a missing key is `none`. -/
structure OAuthor where
  display_name : Option String
  id : Option String
  orcid : Option String
deriving DecidableEq, Repr

/-- One element of a work's `authorships` array; the inner `author` object
may be absent (`author.get("author", {})`). -/
structure OAuthorship where
  author : Option OAuthor
deriving DecidableEq, Repr

/-- A raw OpenAlex work as read by `pyalex-test.py` with `work.get(...)`:
every expected field may be absent. -/
structure OWork where
  title : Option String
  publication_year : Option Int
  cited_by_count : Option Int
  authorships : Option (List OAuthorship)
deriving DecidableEq, Repr

/-- An author entry of a persisted record, built in the record-construction
dictionary literal of `pyalex-test.py`. -/
structure RAuthor where
  name : Option String
  id : Option String
  orcid : Option String
deriving DecidableEq, Repr

/-- A persisted record, as built by the record-construction dictionary
literal of `pyalex-test.py` (title, publication_year, cited_by_count,
authors); note the work's own OpenAlex id is not kept. -/
structure Record where
  title : Option String
  publication_year : Option Int
  cited_by_count : Option Int
  authors : List RAuthor
deriving DecidableEq, Repr

/-- `{"name": ..., "id": ..., "orcid": ...}` built from one authorship:
`author.get("author", {})` defaults the missing object, whose own lookups
then all give `None`. -/
def mkAuthor (a : OAuthorship) : RAuthor :=
  let au := a.author.getD { display_name := none, id := none, orcid := none }
  { name := au.display_name, id := au.id, orcid := au.orcid }

/-- The `record = {...}` construction inside the main loop of
`pyalex-test.py`: each field is `work.get(...)` (so `none` propagates), and
`work.get("authorships", [])` defaults to the empty list. -/
def mkRecord (w : OWork) : Record :=
  { title := w.title
    publication_year := w.publication_year
    cited_by_count := w.cited_by_count
    authors := (w.authorships.getD []).map mkAuthor }

/-- One HTTP response consumed by an iteration of the `while True` loop of
`pyalex-test.py`. `results` is `none` when the body lacks the `results`
key (the code reads `data.get("results", [])`); `next_cursor` is `none`
when `meta` or `meta.next_cursor` is absent
(`data.get("meta", {}).get("next_cursor")`). -/
structure PyalexResponse where
  status_code : Nat
  results : Option (List OWork)
  next_cursor : Option String
deriving DecidableEq, Repr

/-- State of one run of `pyalex-test.py`: the in-memory `all_works` list,
the contents of `openalex_medicine_ai_works.json` on disk, the current
`cursor` param, the number of loop iterations performed (HTTP GETs
issued), and whether the non-200 branch was taken. -/
structure PyalexState where
  all_works : List Record
  disk : List Record
  cursor : String
  pages : Nat
  httpError : Bool
deriving DecidableEq, Repr

/-- Python's `if not next_cursor` test: true on `None` and on the empty
string. -/
def pyStop (c : Option String) : Bool :=
  match c with
  | none => true
  | some s => s = ""

/-- The records appended by one successful page. -/
def pageRecords (r : PyalexResponse) : List Record :=
  (r.results.getD []).map mkRecord

/-- True when the loop of `pyalex-test.py`, handed response `r`, goes on
to issue another GET: status 200 and a non-empty next cursor. -/
def pyContinues (r : PyalexResponse) : Bool :=
  r.status_code == 200 && !(pyStop r.next_cursor)

/-- The `while True` loop of `pyalex-test.py`, consuming one response per
GET issued. On a non-200 status it prints the code and `break`s (no
retry, no raise). On success it appends the page's records to
`all_works`, rewrites the whole output file (`open(..., "w")` +
`json.dump(all_works, ...)`), and `break`s iff `next_cursor` is falsy,
otherwise it stores the cursor and iterates. An exhausted response list
models the remote never answering again; no claim exercises that case. -/
def pyalexLoop : List PyalexResponse → PyalexState → PyalexState
  | [], s => s
  | r :: rest, s =>
    let s1 := { s with pages := s.pages + 1 }
    if r.status_code ≠ 200 then
      { s1 with httpError := true }
    else
      let works := s1.all_works ++ pageRecords r
      let s2 := { s1 with all_works := works, disk := works }
      if pyStop r.next_cursor then s2
      else pyalexLoop rest { s2 with cursor := r.next_cursor.getD s2.cursor }

/-- A whole run of `pyalex-test.py`: `all_works` is loaded from the output
file when it exists (else `[]`), and the cursor param starts at `"*"`
unconditionally — the script persists no resumption token. -/
def pyalexScript (rs : List PyalexResponse) (loaded : Option (List Record)) : PyalexState :=
  let w := loaded.getD []
  pyalexLoop rs { all_works := w, disk := w, cursor := "*", pages := 0, httpError := false }

/-- Exit status of `pyalex-test.py`. The script contains no `raise` and no
`sys.exit`; on a non-200 response it prints the code and `break`s, then
prints "Finished." and falls off the end, so the interpreter exits with
status 0 on every run, error or not. -/
def pyalexExitCode (_rs : List PyalexResponse) (_loaded : Option (List Record)) : Nat := 0

/-! ## `main.py` : metapub pmid loop -/

/-- The `if articles_batch is not None` test of `main.py` that decides
whether the loop takes another iteration (`continue`) rather than
`break`ing. An empty list is not `None`, so it continues. -/
def mainContinues (articles_batch : Option (List Nat)) : Bool :=
  articles_batch.isSome

/-- The `while True` loop of `main.py`, consuming one batch of pmids per
call to `pmids_for_query`. Each iteration appends the batch to
`articles`, then opens `pmidsmeta.txt` in append mode (`"a"`) and writes
every pmid of every accumulated batch again. Were a batch `None`, the
write loop `for pmid in pmid_batch` would raise a `TypeError` before the
`break` is reached. Returns the accumulated batches and the final file
contents. -/
def mainLoop : List (Option (List Nat)) → List (List Nat) → List Nat →
    Except String (List (List Nat) × List Nat)
  | [], articles, file => .ok (articles, file)
  | b :: rest, articles, file =>
    match b with
    | none => .error "TypeError: NoneType object is not iterable"
    | some batch =>
      let articles1 := articles ++ [batch]
      let file1 := file ++ articles1.flatten
      mainLoop rest articles1 file1

/-! ## `get-pubmed.py` : `search_ml_medicine_articles` -/

/-- Python-dict insertion as performed by
`all_articles[article_id] = article_data`: an existing key keeps its
position and has its value overwritten; a new key is appended. -/
def dictInsert {α : Type} (d : List (String × α)) (k : String) (v : α) :
    List (String × α) :=
  if k ∈ d.map Prod.fst then
    d.map fun p => if p.1 = k then (k, v) else p
  else d ++ [(k, v)]

/-- First value stored under `k`, i.e. Python's `d[article_id]` read. -/
def dictLookup {α : Type} (k : String) : List (String × α) → Option α
  | [] => none
  | p :: d => if p.1 = k then some p.2 else dictLookup k d

/-- The `for article_id, article_data in details["result"].items()` loop:
every entry except the bookkeeping key `"uids"` is inserted into the
accumulated dict. -/
def insertArticles {α : Type} (d : List (String × α))
    (entries : List (String × α)) : List (String × α) :=
  entries.foldl (fun acc p => if p.1 = "uids" then acc else dictInsert acc p.1 p.2) d

/-- One batch iteration's remote data in `search_ml_medicine_articles`.
`failed` models any exception raised while fetching the batch (e.g.
`raise_for_status` on a non-200 esearch or esummary response);
`has_esearchresult` models the `"esearchresult" in search_batch` key
test, `idlist` the optional `"idlist"` field, `result` the optional
`"result"` dict of the esummary response, in document order. -/
structure PubmedBatch (α : Type) where
  failed : Bool
  has_esearchresult : Bool
  idlist : Option (List String)
  result : Option (List (String × α))
deriving DecidableEq

/-- In-memory plus on-disk state of `search_ml_medicine_articles`:
`searched_combos` and `all_articles` as in the code, and the contents of
`search_progress.json` (`none` before the first write). -/
structure PState (α : Type) where
  searched_combos : List String
  all_articles : List (String × α)
  progressFile : Option (List String × List (String × α))
deriving DecidableEq

/-- The fresh state of a run that found no progress file:
`searched_combos = []`, `all_articles = {}`. -/
def freshPState (α : Type) : PState α :=
  { searched_combos := [], all_articles := [], progressFile := none }

/-- Loading `search_progress.json` at startup: on success the saved
`searched_combos` and `articles` are restored; otherwise the run starts
fresh. -/
def resumeState {α : Type} (p : Option (List String × List (String × α))) :
    PState α :=
  match p with
  | some d => { searched_combos := d.1, all_articles := d.2, progressFile := p }
  | none => freshPState α

/-- The article entries a non-failed batch contributes: the code inserts
only when `"esearchresult"` and `"idlist"` are present, the id list is
non-empty, and the esummary response has a `"result"` field; in every
other case it inserts nothing (no exception). -/
def batchEntries {α : Type} (b : PubmedBatch α) : List (String × α) :=
  if b.has_esearchresult then
    match b.idlist with
    | some ids =>
      if ids.isEmpty then []
      else
        match b.result with
        | some entries => entries
        | none => []
    | none => []
  else []

/-- One iteration of the `for start in range(0, total_results, batch_size)`
loop for term `key`. On an exception the `except` block logs, rewrites
`search_progress.json` with the current (unchanged) state, and the `for`
loop moves on to the next batch — no re-raise, no break. On success the
batch's entries are inserted, `searched_combos.append(combo_key)` runs
(inside the batch loop), and the progress file is rewritten with the full
current state. -/
def processBatch {α : Type} (key : String) (st : PState α) (b : PubmedBatch α) :
    PState α :=
  if b.failed then
    { st with progressFile := some (st.searched_combos, st.all_articles) }
  else
    let arts := insertArticles st.all_articles (batchEntries b)
    let combos := st.searched_combos ++ [key]
    { searched_combos := combos, all_articles := arts,
      progressFile := some (combos, arts) }

/-- The whole batch loop of one term: batches processed in order. -/
def runTermBatches {α : Type} (key : String) (st : PState α)
    (bs : List (PubmedBatch α)) : PState α :=
  bs.foldl (processBatch key) st

/-- Processing of one term in `search_ml_medicine_articles`: skipped
entirely when `combo_key in searched_combos`; otherwise the batch loop
runs if the initial count query yielded a count plus WebEnv/QueryKey
(`preOk`), and in every non-skipped case the combo key is appended once
more and the progress file rewritten. -/
def runTerm {α : Type} (key : String) (st : PState α) (preOk : Bool)
    (bs : List (PubmedBatch α)) : PState α :=
  if key ∈ st.searched_combos then st
  else
    let st1 := if preOk then runTermBatches key st bs else st
    let combos := st1.searched_combos ++ [key]
    { searched_combos := combos, all_articles := st1.all_articles,
      progressFile := some (combos, st1.all_articles) }

/-- The final output of `search_ml_medicine_articles`:
`list(all_articles.values())`, in insertion order. -/
def finalArticleList {α : Type} (st : PState α) : List α :=
  st.all_articles.map Prod.snd

/-! ## `analyze_normalized_citations.py` -/

/-- Lookup of `citation_stats[year]["average"]`: the per-year mean
citation count, given as an association list from year to mean. The
`year in citation_stats` key test is the lookup succeeding. -/
def lookupStat (stats : List (Int × ℚ)) (y : Int) : Option ℚ :=
  (stats.find? fun p => p.1 == y).map Prod.snd

/-- The per-work score assignment of `analyze_normalized_citations.py`:
with `current_year = 2025`, `year = work.get("publication_year")` and
`citations = work.get("cited_by_count", 0)`, when `year` is a key of
`citation_stats` whose average is `> 0` the score is the expression
`citations / current_year - int(year) + 1` exactly as written (Python
evaluates the division first, then subtracts `year`, then adds 1);
otherwise the field is set to `None`. Rationals stand in for Python
floats: only the algebraic shape of the expression is at issue. -/
def normalizedCitationScore (stats : List (Int × ℚ)) (w : Record) : Option ℚ :=
  let citations : ℚ := ((w.cited_by_count.getD 0 : Int) : ℚ)
  match w.publication_year with
  | some y =>
    match lookupStat stats y with
    | some avg => if 0 < avg then some (citations / 2025 - (y : ℚ) + 1) else none
    | none => none
  | none => none

/-- The `ranked` list: works whose score is not `None`, stably sorted by
score in descending order (`sorted(..., reverse=True)`). -/
def rankedWorks (stats : List (Int × ℚ)) (ws : List Record) : List Record :=
  (ws.filter fun w => (normalizedCitationScore stats w).isSome).mergeSort
    fun a b =>
      ((normalizedCitationScore stats b).getD 0) ≤ ((normalizedCitationScore stats a).getD 0)

/-- Python's `work['title'][:80]`: slicing a string truncates it, but
subscripting `None` raises a `TypeError`. -/
def sliceTitle : Option String → Except String String
  | none => .error "TypeError: NoneType object is not subscriptable"
  | some t => .ok (t.take 80)

/-- One line of the top-10 printout, up to the point that can fail:
`print(f"...{work['title'][:80]}...")`. -/
def printTopLine (w : Record) : Except String String :=
  (sliceTitle w.title).map fun t => t ++ "..."

/-- The top-10 printing loop `for i, work in enumerate(ranked[:10], 1)`:
the first work with a `None` title aborts the loop with a raised
`TypeError`. -/
def printTop10 (stats : List (Int × ℚ)) (ws : List Record) :
    Except String (List String) :=
  ((rankedWorks stats ws).take 10).mapM printTopLine

/-- True when the loop of `pyalex-test.py` breaks on response `r`:
either the non-200 branch or the falsy-cursor branch. -/
def stopsNow (r : PyalexResponse) : Bool :=
  (r.status_code != 200) || pyStop r.next_cursor

/-! ## Concrete sample data -/

/-- A sample OpenAlex work. -/
def wA : OWork :=
  { title := some "A", publication_year := some 2020, cited_by_count := some 5,
    authorships := some [] }

/-- A second, distinct sample work. -/
def wB : OWork :=
  { title := some "B", publication_year := some 2021, cited_by_count := some 7,
    authorships := some [] }

/-- A successful page carrying `wA` and a next cursor. -/
def okPageA : PyalexResponse := ⟨200, some [wA], some "c2"⟩

/-- A successful final page carrying `wB` and no next cursor. -/
def lastPageB : PyalexResponse := ⟨200, some [wB], none⟩

/-- A transport-level failure: HTTP 500. -/
def err500 : PyalexResponse := ⟨500, none, none⟩

/-- A page re-serving `wA`, final. -/
def repeatPageA : PyalexResponse := ⟨200, some [wA], none⟩

/-- A well-formed `get-pubmed.py` batch response serving exactly the
entries `p`: esearch succeeded with the ids of `p`, esummary returned the
corresponding result dict. -/
def mkBatch {α : Type} (p : List (String × α)) : PubmedBatch α :=
  ⟨false, true, some (p.map Prod.fst), some p⟩

/-- A sample record with a title, as the analysis script loads it. -/
def exWork : Record :=
  { title := some "T", publication_year := some 2020, cited_by_count := some 100,
    authors := [] }

/-- An OpenAlex work lacking a title, as served by the remote API. -/
def wNull : OWork :=
  { title := none, publication_year := some 2020, cited_by_count := some 100,
    authorships := some [] }

/-! ## Helper lemmas about the pyalex loop -/

/-- The loop writes `all_works` to disk on every successful page, so the
invariant `disk = all_works` is preserved. -/
lemma pyalexLoop_disk_eq (rs : List PyalexResponse) :
    ∀ s : PyalexState, s.disk = s.all_works →
      (pyalexLoop rs s).disk = (pyalexLoop rs s).all_works := by
  induction rs with
  | nil => intro s h; exact h
  | cons r rest ih =>
    intro s h
    obtain ⟨aw, dk, cur, pg, he⟩ := s
    simp only [pyalexLoop]
    split
    · simpa using h
    · split
      · rfl
      · exact ih _ rfl

/-- Pre-loaded works only prepend to every later `all_works` and disk
state; they influence nothing else about the run. -/
lemma pyalexLoop_prepend (rs : List PyalexResponse) (d : List Record) :
    ∀ s : PyalexState,
      pyalexLoop rs { s with all_works := d ++ s.all_works, disk := d ++ s.disk } =
        { pyalexLoop rs s with
            all_works := d ++ (pyalexLoop rs s).all_works,
            disk := d ++ (pyalexLoop rs s).disk } := by
  induction rs with
  | nil => intro s; rfl
  | cons r rest ih =>
    intro s
    obtain ⟨aw, dk, cur, pg, he⟩ := s
    simp only [pyalexLoop]
    split
    · rfl
    · split
      · simp [pageRecords, List.append_assoc]
      · have h := ih ⟨aw ++ pageRecords r, aw ++ pageRecords r, r.next_cursor.getD cur, pg + 1, he⟩
        simpa [List.append_assoc] using h

/-- The iteration counter never decreases. -/
lemma pyalexLoop_pages_le (rs : List PyalexResponse) :
    ∀ s : PyalexState, s.pages ≤ (pyalexLoop rs s).pages := by
  induction rs with
  | nil => intro s; exact Nat.le_refl _
  | cons r rest ih =>
    intro s
    obtain ⟨aw, dk, cur, pg, he⟩ := s
    simp only [pyalexLoop]
    split
    · exact Nat.le_succ _
    · split
      · exact Nat.le_succ _
      · exact Nat.le_trans (Nat.le_succ _)
          (ih ⟨aw ++ pageRecords r, aw ++ pageRecords r, r.next_cursor.getD cur, pg + 1, he⟩)

/-- A non-empty response list always costs at least one iteration. -/
lemma pyalexLoop_pages_succ_le (r : PyalexResponse) (rest : List PyalexResponse) :
    ∀ s : PyalexState, s.pages + 1 ≤ (pyalexLoop (r :: rest) s).pages := by
  intro s
  obtain ⟨aw, dk, cur, pg, he⟩ := s
  simp only [pyalexLoop]
  split
  · exact Nat.le_refl _
  · split
    · exact Nat.le_refl _
    · exact pyalexLoop_pages_le rest
        ⟨aw ++ pageRecords r, aw ++ pageRecords r, r.next_cursor.getD cur, pg + 1, he⟩

/-- A run of good pages followed by a non-200 response: the loop processes
the good pages (persisting each), then takes the error branch, leaving the
good pages' records on disk and the error flag set. -/
lemma pyalexLoop_abort (good : List PyalexResponse) (bad : PyalexResponse)
    (rest : List PyalexResponse) :
    ∀ s : PyalexState, s.disk = s.all_works →
      (∀ r ∈ good, pyContinues r = true) → bad.status_code ≠ 200 →
      (pyalexLoop (good ++ bad :: rest) s).disk
          = s.all_works ++ (good.map pageRecords).flatten
        ∧ (pyalexLoop (good ++ bad :: rest) s).httpError = true := by
  induction good with
  | nil =>
    intro s hdisk _ hbad
    obtain ⟨aw, dk, cur, pg, he⟩ := s
    simp only [List.nil_append, pyalexLoop]
    rw [if_pos hbad]
    simpa using hdisk
  | cons r good ih =>
    intro s hdisk hgood hbad
    have hr : pyContinues r = true := hgood r (List.mem_cons_self r good)
    have hstatus : r.status_code = 200 := by
      have := hr
      simp only [pyContinues, Bool.and_eq_true, beq_iff_eq] at this
      exact this.1
    have hcursor : pyStop r.next_cursor = false := by
      have := hr
      simp only [pyContinues, Bool.and_eq_true, Bool.not_eq_true'] at this
      exact this.2
    obtain ⟨aw, dk, cur, pg, he⟩ := s
    simp only [List.cons_append, pyalexLoop]
    rw [if_neg (by simp [hstatus]), if_neg (by simp [hcursor])]
    have h := ih ⟨aw ++ pageRecords r, aw ++ pageRecords r, r.next_cursor.getD cur, pg + 1, he⟩
      rfl (fun x hx => hgood x (List.mem_cons_of_mem r hx)) hbad
    simpa [List.append_assoc] using h

/-! ## Helper lemmas about the article dict -/

/-- Overwriting the entries keyed `k` leaves the key list untouched. -/
lemma map_fst_overwrite {α : Type} (k : String) (v : α) :
    ∀ d : List (String × α),
      ((d.map fun p => if p.1 = k then (k, v) else p).map Prod.fst) = d.map Prod.fst := by
  intro d
  induction d with
  | nil => rfl
  | cons p d ih =>
    simp only [List.map_cons, List.map_map] at ih ⊢
    by_cases hp : p.1 = k
    · simp [hp, ih]
    · simp [hp, ih]

/-- Key list of a Python-dict insertion: unchanged when the key exists,
otherwise the key is appended. -/
lemma dictInsert_keys {α : Type} (d : List (String × α)) (k : String) (v : α) :
    (dictInsert d k v).map Prod.fst =
      if k ∈ d.map Prod.fst then d.map Prod.fst else d.map Prod.fst ++ [k] := by
  unfold dictInsert
  by_cases h : k ∈ d.map Prod.fst
  · rw [if_pos h, if_pos h, map_fst_overwrite]
  · rw [if_neg h, if_neg h]
    simp

/-- When the key exists, every entry under it is rewritten, so the lookup
yields the new value. -/
lemma dictLookup_map_overwrite {α : Type} (k : String) (v : α) :
    ∀ d : List (String × α), k ∈ d.map Prod.fst →
      dictLookup k (d.map fun p => if p.1 = k then (k, v) else p) = some v := by
  intro d
  induction d with
  | nil => intro h; simp at h
  | cons p d ih =>
    intro h
    by_cases hp : p.1 = k
    · simp [dictLookup, hp]
    · have hmem : k ∈ d.map Prod.fst := by
        simp only [List.map_cons, List.mem_cons] at h
        rcases h with h | h
        · exact absurd h.symm hp
        · exact h
      simp [dictLookup, hp, ih hmem]

/-- Appending a fresh key makes the lookup find it. -/
lemma dictLookup_append_self {α : Type} (k : String) (v : α) :
    ∀ d : List (String × α), k ∉ d.map Prod.fst →
      dictLookup k (d ++ [(k, v)]) = some v := by
  intro d
  induction d with
  | nil => intro _; simp [dictLookup]
  | cons p d ih =>
    intro h
    simp only [List.map_cons, List.mem_cons, not_or] at h
    have hp : p.1 ≠ k := fun hh => h.1 hh.symm
    simp [dictLookup, hp, ih h.2]

/-- After `all_articles[k] = v`, the value stored under `k` is `v`. -/
lemma dictLookup_insert {α : Type} (d : List (String × α)) (k : String) (v : α) :
    dictLookup k (dictInsert d k v) = some v := by
  unfold dictInsert
  by_cases h : k ∈ d.map Prod.fst
  · rw [if_pos h]; exact dictLookup_map_overwrite k v d h
  · rw [if_neg h]; exact dictLookup_append_self k v d h

/-- Inserting a batch of entries whose keys are new, pairwise distinct and
distinct from `"uids"` simply appends them in order. -/
lemma insertArticles_fresh {α : Type} :
    ∀ (entries d : List (String × α)),
      (entries.map Prod.fst).Nodup →
      (∀ x ∈ entries.map Prod.fst, x ∉ d.map Prod.fst) →
      "uids" ∉ entries.map Prod.fst →
      insertArticles d entries = d ++ entries := by
  intro entries
  induction entries with
  | nil => intro d _ _ _; simp [insertArticles]
  | cons e entries ih =>
    intro d hnodup hdisj huids
    obtain ⟨k, v⟩ := e
    simp only [List.map_cons, List.nodup_cons] at hnodup
    simp only [List.map_cons, List.mem_cons, not_or] at huids
    have hk : k ∉ d.map Prod.fst :=
      hdisj k (by simp)
    have hku : k ≠ "uids" := fun hh => huids.1 hh.symm
    have hstep : insertArticles d ((k, v) :: entries)
        = insertArticles (d ++ [(k, v)]) entries := by
      simp only [insertArticles, List.foldl_cons, hku, if_neg hku]
      unfold dictInsert
      rw [if_neg hk]
      simp
    rw [hstep, ih (d ++ [(k, v)]) hnodup.2]
    · simp
    · intro x hx
      simp only [List.map_append, List.mem_append, List.map_cons, List.map_nil,
        List.mem_singleton, not_or]
      refine ⟨hdisj x (by simp [hx]), ?_⟩
      intro hxk
      exact hnodup.1 (hxk ▸ hx)
    · exact huids.2

/-! ## Helper lemmas about the combo-key bookkeeping -/

/-- Each non-failed batch appends one copy of the combo key to
`searched_combos`; failed batches append none. -/
lemma runTermBatches_combos {α : Type} (key : String) :
    ∀ (bs : List (PubmedBatch α)) (st : PState α),
      (runTermBatches key st bs).searched_combos
        = st.searched_combos ++ List.replicate (bs.countP fun b => !b.failed) key := by
  intro bs
  induction bs with
  | nil => intro st; simp [runTermBatches]
  | cons b bs ih =>
    intro st
    simp only [runTermBatches, List.foldl_cons] at ih ⊢
    by_cases hb : b.failed
    · rw [show processBatch key st b = { st with progressFile := some (st.searched_combos, st.all_articles) } from by
        simp [processBatch, hb]]
      rw [ih]
      simp [List.countP_cons, hb]
    · have hpb : (processBatch key st b).searched_combos = st.searched_combos ++ [key] := by
        simp [processBatch, hb]
      rw [ih]
      rw [hpb]
      simp [List.countP_cons, hb, List.replicate_succ, List.append_assoc]

/-- A well-formed batch fails nothing. -/
lemma mkBatch_failed {α : Type} (p : List (String × α)) : (mkBatch p).failed = false := rfl

/-- A non-empty well-formed batch contributes exactly its entries. -/
lemma batchEntries_mkBatch {α : Type} (p : List (String × α)) (hp : p ≠ []) :
    batchEntries (mkBatch p) = p := by
  cases p with
  | nil => exact absurd rfl hp
  | cons e p => rfl

/-! ## Claims -/

/-- Claim C1, counterexample. A non-200 response on page 2 of 3 does leave
exactly the page-1 records on disk, but `pyalex-test.py` then prints the
status code, breaks, prints "Finished." and exits with status 0 — it does
not exit non-zero or raise, contrary to the claim. -/
theorem C1_counterexample :
    (pyalexScript [okPageA, err500, lastPageB] none).disk = [mkRecord wA]
    ∧ (pyalexScript [okPageA, err500, lastPageB] none).httpError = true
    ∧ pyalexExitCode [okPageA, err500, lastPageB] none = 0 := by
  refine ⟨by decide, by decide, rfl⟩

/-- Claim C1, amended. For every run in which an HTTP response has a
status outside the 200 range, the `pyalex-test.py` loop aborts at that
point without retrying and all records persisted by the earlier
successful pages remain on disk, but the failure is only printed: the
process exits with status 0 rather than signaling failure. -/
theorem C1_theorem :
    ∀ (good : List PyalexResponse) (bad : PyalexResponse)
      (rest : List PyalexResponse) (loaded : Option (List Record)),
      (∀ r ∈ good, pyContinues r = true) → bad.status_code ≠ 200 →
      (pyalexScript (good ++ bad :: rest) loaded).disk
          = loaded.getD [] ++ (good.map pageRecords).flatten
        ∧ (pyalexScript (good ++ bad :: rest) loaded).httpError = true
        ∧ pyalexExitCode (good ++ bad :: rest) loaded = 0 := by
  intro good bad rest loaded hgood hbad
  have h := pyalexLoop_abort good bad rest ⟨loaded.getD [], loaded.getD [], "*", 0, false⟩
    rfl hgood hbad
  exact ⟨h.1, h.2, rfl⟩

/-- Claim C1, witness: one good page then a 500. -/
theorem C1_witness :
    (pyalexScript [okPageA, err500] none).disk = [mkRecord wA]
    ∧ (pyalexScript [okPageA, err500] none).httpError = true
    ∧ pyalexExitCode [okPageA, err500] none = 0 := by
  have h := C1_theorem [okPageA] err500 [] none (by decide) (by decide)
  simpa [pageRecords, okPageA] using h

/-- Claim C2, counterexample. Interrupt a two-page run after the first
page-persist and restart against the same remote data: the reloaded
records are re-extended with page 1 again (the cursor restarts at `"*"`
and no resumption token was persisted), so the resumed run's final
collection differs from the uninterrupted run's. -/
theorem C2_counterexample :
    (pyalexScript [okPageA, lastPageB]
        (some ((pyalexScript [okPageA] none).disk))).all_works
      ≠ (pyalexScript [okPageA, lastPageB] none).all_works := by
  decide

/-- Claim C2, amended. `pyalex-test.py` persists no resumption token: a
restarted run reloads the previously saved records but starts the cursor
at `"*"` again, so over the same remote data it re-fetches everything and
its final collection is the loaded records prepended to a full
from-scratch run's collection (already-persisted pages are duplicated,
not skipped); it issues exactly as many page fetches as a fresh run. -/
theorem C2_theorem :
    ∀ (rs : List PyalexResponse) (d : List Record),
      (pyalexScript rs (some d)).all_works
          = d ++ (pyalexScript rs none).all_works
        ∧ (pyalexScript rs (some d)).pages = (pyalexScript rs none).pages := by
  intro rs d
  have h := pyalexLoop_prepend rs d ⟨[], [], "*", 0, false⟩
  simp only [List.append_nil] at h
  constructor
  · simp [pyalexScript, h]
  · simp [pyalexScript, h]

/-- Claim C3, counterexample. In `pyalex-test.py` the accumulated
collection is a list grown with `extend` and records carry no identifier:
re-fetching a page whose records were already persisted appends the same
records again, so the output does contain duplicates. -/
theorem C3_counterexample :
    (pyalexScript [okPageA, repeatPageA] none).all_works
        = [mkRecord wA, mkRecord wA]
      ∧ ¬ (pyalexScript [okPageA, repeatPageA] none).all_works.Nodup := by
  refine ⟨by decide, by decide⟩

/-- Claim C3, amended. In `get-pubmed.py` the accumulated collection is a
dict keyed by article id, and there insertion has overwrite semantics:
inserting an existing identifier rewrites its value in place, keeps the
key list unchanged and duplicate-free, and leaves the size unchanged. In
`pyalex-test.py`, however, records are identifier-less and appended with
`extend`, so re-fetching an already-persisted page duplicates records. -/
theorem C3_theorem :
    ∀ (α : Type) (d : List (String × α)) (k : String) (v : α),
      (d.map Prod.fst).Nodup →
      ((dictInsert d k v).map Prod.fst).Nodup
        ∧ dictLookup k (dictInsert d k v) = some v
        ∧ (k ∈ d.map Prod.fst →
            (dictInsert d k v).map Prod.fst = d.map Prod.fst
              ∧ (dictInsert d k v).length = d.length) := by
  intro α d k v hnodup
  refine ⟨?_, dictLookup_insert d k v, ?_⟩
  · rw [dictInsert_keys]
    by_cases hk : k ∈ d.map Prod.fst
    · rw [if_pos hk]; exact hnodup
    · rw [if_neg hk]
      simp [List.nodup_append, hnodup, hk]
  · intro hk
    refine ⟨by rw [dictInsert_keys, if_pos hk], ?_⟩
    unfold dictInsert
    rw [if_pos hk]
    simp

/-- Claim C3, witness: overwriting key `"a"` in a two-entry dict. -/
theorem C3_witness :
    ((dictInsert [("a", 1), ("b", 2)] "a" 5).map Prod.fst).Nodup
      ∧ dictLookup "a" (dictInsert [("a", 1), ("b", 2)] "a" 5) = some 5
      ∧ (dictInsert [("a", 1), ("b", 2)] "a" 5).length = 2 := by
  have h := C3_theorem Nat [("a", 1), ("b", 2)] "a" 5 (by decide)
  exact ⟨h.1, h.2.1, (h.2.2 (by decide)).2⟩

/-- Claim C4, counterexample. A first call returning zero results but a
next cursor does not terminate the loop of `pyalex-test.py`: the run
issues a second GET (two iterations, not one). -/
theorem C4_counterexample :
    (pyalexScript [⟨200, some [], some "c2"⟩, ⟨200, some [], none⟩] none).pages = 2
      ∧ (pyalexScript [⟨200, some [], some "c2"⟩, ⟨200, some [], none⟩] none).pages ≠ 1 := by
  refine ⟨by decide, by decide⟩

/-- Claim C4, amended. The loop of `pyalex-test.py` stops at a page
exactly when that page's response has a non-200 status or a missing/empty
next cursor (or the remote never answers again); an empty result list by
itself does not terminate it. The loop of `main.py` continues on every
actual list batch — `if articles_batch is not None` is true even for an
empty batch — so zero results never stop it after one iteration either. -/
theorem C4_theorem :
    (∀ (r : PyalexResponse) (rest : List PyalexResponse) (s : PyalexState),
        (pyalexLoop (r :: rest) s).pages = s.pages + 1
          ↔ (stopsNow r = true ∨ rest = []))
      ∧ (∀ b : List Nat, mainContinues (some b) = true) := by
  constructor
  · intro r rest s
    obtain ⟨aw, dk, cur, pg, he⟩ := s
    simp only [pyalexLoop]
    by_cases h1 : r.status_code ≠ 200
    · rw [if_pos h1]
      simp [stopsNow, h1]
    · rw [if_neg h1]
      push_neg at h1
      by_cases h2 : pyStop r.next_cursor
      · rw [if_pos h2]
        simp [stopsNow, h2]
      · rw [if_neg h2]
        cases rest with
        | nil => simp [pyalexLoop, stopsNow, h1, h2]
        | cons r2 rest2 =>
          have hle := pyalexLoop_pages_succ_le r2 rest2
            ⟨aw ++ pageRecords r, aw ++ pageRecords r, r.next_cursor.getD cur, pg + 1, he⟩
          simp only at hle
          constructor
          · intro hcontra
            omega
          · intro hor
            rcases hor with hor | hor
            · exact absurd hor (by simp [stopsNow, h1, h2])
            · exact absurd hor (by simp)
  · intro b
    rfl

/-- Claim C4, witness: a no-cursor first page stops after one iteration,
and an empty `main.py` batch continues. -/
theorem C4_witness :
    (pyalexLoop [lastPageB] ⟨[], [], "*", 0, false⟩).pages = 0 + 1
      ∧ mainContinues (some []) = true := by
  exact ⟨(C4_theorem.1 lastPageB [] ⟨[], [], "*", 0, false⟩).mpr (Or.inl (by decide)),
    C4_theorem.2 []⟩

/-- Claim C5, counterexample. `main.py` opens `pmidsmeta.txt` in append
mode and re-writes the entire accumulated batch list each iteration: with
prior contents `[9]` and batches `[1]` and `[2]`, the file ends as
`[9, 1, 1, 2]`, which is not the serialization `[1, 2]` of the
accumulated collection and depends on the file's prior contents. -/
theorem C5_counterexample :
    mainLoop [some [1], some [2]] [] [9] = .ok ([[1], [2]], [9, 1, 1, 2])
      ∧ ([9, 1, 1, 2] : List Nat) ≠ ([[1], [2]] : List (List Nat)).flatten := by
  refine ⟨rfl, by decide⟩

/-- Claim C5, amended. The checkpoint writes of `pyalex-test.py` and
`get-pubmed.py` are wholesale overwrites of one known path: at every
point of a `pyalex-test.py` run the output file equals the current
accumulated collection, and every `get-pubmed.py` batch leaves
`search_progress.json` equal to the full current state. `main.py` is the
exception: it appends, re-writing the whole accumulated list each page,
so its file is not the serialization of the current state. -/
theorem C5_theorem :
    (∀ (rs : List PyalexResponse) (loaded : Option (List Record)),
        (pyalexScript rs loaded).disk = (pyalexScript rs loaded).all_works)
      ∧ (∀ (key : String) (st : PState Nat) (b : PubmedBatch Nat),
          (processBatch key st b).progressFile
            = some ((processBatch key st b).searched_combos,
                (processBatch key st b).all_articles)) := by
  constructor
  · intro rs loaded
    exact pyalexLoop_disk_eq rs ⟨loaded.getD [], loaded.getD [], "*", 0, false⟩ rfl
  · intro key st b
    by_cases hb : b.failed
    · simp [processBatch, hb]
    · simp [processBatch, hb]

/-- Claim C6, counterexample. A response missing the expected fields does
not raise and does not stop the run without advancing progress: a
`get-pubmed.py` batch whose body has no `esearchresult` still appends the
combo key and rewrites the progress file, and a `pyalex-test.py` response
with no `results` and no `meta` is treated as an empty last page — the
run completes with no error flag. -/
theorem C6_counterexample :
    processBatch "Artificial Intelligence" (freshPState Nat) ⟨false, false, none, none⟩
        = ⟨["Artificial Intelligence"], [], some (["Artificial Intelligence"], [])⟩
      ∧ (pyalexScript [⟨200, none, none⟩] none).pages = 1
      ∧ (pyalexScript [⟨200, none, none⟩] none).httpError = false := by
  refine ⟨by decide, by decide, by decide⟩

/-- Claim C6, amended. Malformed response shapes are tolerated, not
surfaced: in `get-pubmed.py` a batch without an exception whose body
lacks `esearchresult` inserts nothing yet still appends the combo key and
persists the updated progress state, and in `pyalex-test.py` a body
without a `results` field behaves exactly as one with an empty result
list (`data.get("results", [])`). -/
theorem C6_theorem :
    (∀ (key : String) (st : PState Nat) (b : PubmedBatch Nat),
        b.failed = false → b.has_esearchresult = false →
        processBatch key st b
          = ⟨st.searched_combos ++ [key], st.all_articles,
              some (st.searched_combos ++ [key], st.all_articles)⟩)
      ∧ (∀ (c : Option String) (rest : List PyalexResponse) (s : PyalexState),
          pyalexLoop (⟨200, none, c⟩ :: rest) s
            = pyalexLoop (⟨200, some [], c⟩ :: rest) s) := by
  constructor
  · intro key st b hf he
    simp [processBatch, hf, batchEntries, he, insertArticles]
  · intro c rest s
    rfl

/-- Claim C6, witness: a malformed batch for the single search term. -/
theorem C6_witness :
    processBatch "Artificial Intelligence" ⟨["x"], [("1", 0)], none⟩
        ⟨false, false, some [], none⟩
      = ⟨["x", "Artificial Intelligence"], [("1", 0)],
          some (["x", "Artificial Intelligence"], [("1", 0)])⟩ := by
  have h := C6_theorem.1 "Artificial Intelligence" ⟨["x"], [("1", 0)], none⟩
    ⟨false, false, some [], none⟩ rfl rfl
  simpa using h

/-- Claim C7. A `get-pubmed.py` run over three well-formed batches of two
records each, all six identifiers distinct (and none the bookkeeping key
`"uids"`), accumulates exactly the six records, in page order and within
each page in result order; the final output is their values in that
order. -/
theorem C7_theorem :
    ∀ (p1 p2 p3 : List (String × Nat)),
      p1.length = 2 → p2.length = 2 → p3.length = 2 →
      ((p1 ++ p2 ++ p3).map Prod.fst).Nodup →
      "uids" ∉ (p1 ++ p2 ++ p3).map Prod.fst →
      (runTerm "Artificial Intelligence" (freshPState Nat) true
            [mkBatch p1, mkBatch p2, mkBatch p3]).all_articles = p1 ++ p2 ++ p3
        ∧ (p1 ++ p2 ++ p3).length = 6
        ∧ finalArticleList (runTerm "Artificial Intelligence" (freshPState Nat) true
            [mkBatch p1, mkBatch p2, mkBatch p3]) = (p1 ++ p2 ++ p3).map Prod.snd := by
  intro p1 p2 p3 h1 h2 h3 hnodup huids
  have hp1 : p1 ≠ [] := by intro h; rw [h] at h1; simp at h1
  have hp2 : p2 ≠ [] := by intro h; rw [h] at h2; simp at h2
  have hp3 : p3 ≠ [] := by intro h; rw [h] at h3; simp at h3
  rw [List.map_append, List.map_append] at hnodup huids
  simp only [List.mem_append, not_or] at huids
  have hn12 : ((p1.map Prod.fst) ++ (p2.map Prod.fst)).Nodup := hnodup.of_append_left
  have hn1 : (p1.map Prod.fst).Nodup := hn12.of_append_left
  have hn2 : (p2.map Prod.fst).Nodup := hn12.of_append_right
  have hn3 : (p3.map Prod.fst).Nodup := hnodup.of_append_right
  have hd12 : (p1.map Prod.fst).Disjoint (p2.map Prod.fst) :=
    List.disjoint_of_nodup_append hn12
  have hd3 : ((p1.map Prod.fst) ++ (p2.map Prod.fst)).Disjoint (p3.map Prod.fst) :=
    List.disjoint_of_nodup_append hnodup
  have e1 : insertArticles ([] : List (String × Nat)) p1 = p1 := by
    have h := insertArticles_fresh p1 [] hn1 (by simp) huids.1.1
    simpa using h
  have e2 : insertArticles p1 p2 = p1 ++ p2 :=
    insertArticles_fresh p2 p1 hn2 (fun x hx hmem => hd12 hmem hx) huids.1.2
  have e3 : insertArticles (p1 ++ p2) p3 = p1 ++ p2 ++ p3 :=
    insertArticles_fresh p3 (p1 ++ p2) hn3
      (fun x hx hmem => hd3 (by rw [List.map_append] at hmem; exact hmem) hx) huids.2
  have hall : (runTerm "Artificial Intelligence" (freshPState Nat) true
      [mkBatch p1, mkBatch p2, mkBatch p3]).all_articles = p1 ++ p2 ++ p3 := by
    simp only [runTerm, freshPState, runTermBatches, List.foldl_cons, List.foldl_nil,
      processBatch, mkBatch_failed, batchEntries_mkBatch p1 hp1, batchEntries_mkBatch p2 hp2,
      batchEntries_mkBatch p3 hp3, List.not_mem_nil, if_false, Bool.false_eq_true, if_true]
    simp only [e1, e2, e3]
  refine ⟨hall, ?_, ?_⟩
  · simp [h1, h2, h3]
  · rw [finalArticleList, hall]

/-- Claim C7, witness: three concrete two-record pages. -/
theorem C7_witness :
    (runTerm "Artificial Intelligence" (freshPState Nat) true
          [mkBatch [("a", 1), ("b", 2)], mkBatch [("c", 3), ("d", 4)],
            mkBatch [("e", 5), ("f", 6)]]).all_articles
        = [("a", 1), ("b", 2), ("c", 3), ("d", 4), ("e", 5), ("f", 6)]
      ∧ finalArticleList (runTerm "Artificial Intelligence" (freshPState Nat) true
          [mkBatch [("a", 1), ("b", 2)], mkBatch [("c", 3), ("d", 4)],
            mkBatch [("e", 5), ("f", 6)]]) = [1, 2, 3, 4, 5, 6] := by
  have h := C7_theorem [("a", 1), ("b", 2)] [("c", 3), ("d", 4)] [("e", 5), ("f", 6)]
    rfl rfl rfl (by decide) (by decide)
  exact ⟨by rw [h.1]; rfl, by rw [h.2.2]; rfl⟩

/-- Claim C8. In `analyze_normalized_citations.py`, a work whose
publication year is a key of `citation_stats` with mean citation count
above zero receives the score `citations / 2025 - year + 1` exactly as
the expression is written — the division binds before the subtraction, so
this is not citations divided by the article's age — and every other work
receives `None`; a sample 2020 work with 100 citations shows the computed
score differs from the citations-over-age reading. -/
theorem C8_theorem :
    (∀ (stats : List (Int × ℚ)) (w : Record) (y : Int) (m : ℚ),
        w.publication_year = some y → lookupStat stats y = some m → 0 < m →
        normalizedCitationScore stats w
          = some (((w.cited_by_count.getD 0 : Int) : ℚ) / 2025 - (y : ℚ) + 1))
      ∧ (∀ (stats : List (Int × ℚ)) (w : Record),
          (¬ ∃ y m, w.publication_year = some y ∧ lookupStat stats y = some m ∧ 0 < m) →
          normalizedCitationScore stats w = none)
      ∧ normalizedCitationScore [(2020, 1)] exWork = some ((100 : ℚ) / 2025 - 2020 + 1)
      ∧ normalizedCitationScore [(2020, 1)] exWork
          ≠ some ((100 : ℚ) / (2025 - 2020 + 1)) := by
  refine ⟨?_, ?_, rfl, ?_⟩
  · intro stats w y m hy hm h0
    simp only [normalizedCitationScore, hy, hm]
    rw [if_pos h0]
  · intro stats w hnot
    cases hw : w.publication_year with
    | none => simp [normalizedCitationScore, hw]
    | some y =>
      cases hl : lookupStat stats y with
      | none => simp [normalizedCitationScore, hw, hl]
      | some m =>
        have hm : ¬ 0 < m := fun hc => hnot ⟨y, m, hw, hl, hc⟩
        simp [normalizedCitationScore, hw, hl, hm]
  · simp [normalizedCitationScore, lookupStat, exWork]
    norm_num

/-- Claim C8, witness: the sample 2020 work with 100 citations and a
year-2020 mean of 1. -/
theorem C8_witness :
    (0 : ℚ) < 1
      ∧ normalizedCitationScore [(2020, 1)] exWork
          = some ((100 : ℚ) / 2025 - 2020 + 1) := by
  refine ⟨by norm_num, ?_⟩
  have h := C8_theorem.1 [(2020, 1)] exWork 2020 1 rfl rfl (by norm_num)
  simpa [exWork] using h

/-- Claim C9, counterexample. A run interrupted after exactly one
successful batch of the term persists the combo key once, not multiple
times (though that single copy already makes a resumed run skip the
term's remaining batches). -/
theorem C9_counterexample :
    (runTermBatches "Artificial Intelligence" (freshPState Nat)
          [mkBatch [("7", 1)]]).progressFile
        = some (["Artificial Intelligence"], [("7", 1)])
      ∧ ¬ 1 < (["Artificial Intelligence"].count "Artificial Intelligence") := by
  refine ⟨by decide, by decide⟩

/-- Claim C9, amended. The combo key is appended to `searched_combos`
after every successful batch (one copy per non-failed batch) and once
more after the term's batch loop, so an uninterrupted term leaves the key
`T + 1` times for `T` batches — multiple copies as soon as any batch plus
the term-level append, or two batches, have run; and since the resume
check only tests membership, a run interrupted after at least one
persisted batch skips the entire term, remaining batches included, on
restart. -/
theorem C9_theorem :
    (∀ (key : String) (st : PState Nat) (bs : List (PubmedBatch Nat)),
        (runTermBatches key st bs).searched_combos
          = st.searched_combos ++ List.replicate (bs.countP fun b => !b.failed) key)
      ∧ (∀ (key : String) (st : PState Nat) (preOk : Bool) (bs : List (PubmedBatch Nat)),
          key ∈ st.searched_combos → runTerm key st preOk bs = st)
      ∧ (∀ (key : String) (bs : List (PubmedBatch Nat)),
          (∀ b ∈ bs, b.failed = false) →
          (runTerm key (freshPState Nat) true bs).searched_combos.count key
            = bs.length + 1) := by
  refine ⟨?_, ?_, ?_⟩
  · intro key st bs
    exact runTermBatches_combos key bs st
  · intro key st preOk bs hmem
    simp [runTerm, hmem]
  · intro key bs hall
    have hcount : (bs.countP fun b => !b.failed) = bs.length := by
      rw [List.countP_eq_length]
      intro b hb
      simp [hall b hb]
    simp only [runTerm, freshPState, List.not_mem_nil, if_false, if_true]
    rw [runTermBatches_combos]
    simp [hcount, List.count_append, List.count_replicate]

/-- Claim C9, witness: a term already in `searched_combos` is skipped, and
an uninterrupted two-batch term leaves three copies of the key. -/
theorem C9_witness :
    runTerm "Artificial Intelligence" ⟨["Artificial Intelligence"], [], none⟩ true
        [mkBatch [("7", 1)]]
      = (⟨["Artificial Intelligence"], [], none⟩ : PState Nat)
    ∧ (runTerm "Artificial Intelligence" (freshPState Nat) true
          [mkBatch [("7", 1)], mkBatch [("8", 2)]]).searched_combos.count
        "Artificial Intelligence" = 2 + 1 := by
  refine ⟨C9_theorem.2.1 "Artificial Intelligence" ⟨["Artificial Intelligence"], [], none⟩
    true [mkBatch [("7", 1)]] (by decide), ?_⟩
  have h := C9_theorem.2.2 "Artificial Intelligence"
    [mkBatch [("7", 1)], mkBatch [("8", 2)]] (by decide)
  simpa using h

/-- Claim C10. The fetch script persists a record whose title is `None`
when the remote work lacks one, such a record can carry a non-`None`
normalized score and hence rank, and the top-10 printing step of the
analysis script then raises a `TypeError` on `work['title'][:80]` instead
of producing output: the analysis stage is not total over what the fetch
stage can produce. -/
theorem C10_theorem :
    (pyalexScript [⟨200, some [wNull], none⟩] none).disk = [mkRecord wNull]
      ∧ (mkRecord wNull).title = none
      ∧ (normalizedCitationScore [(2020, 1)] (mkRecord wNull)).isSome = true
      ∧ printTop10 [(2020, 1)] [mkRecord wNull]
          = .error "TypeError: NoneType object is not subscriptable" := by
  refine ⟨by decide, rfl, by decide, ?_⟩
  simp [printTop10, rankedWorks, normalizedCitationScore, lookupStat, mkRecord, wNull,
    printTopLine, sliceTitle, List.mapM.loop, Except.map]

end AiMedicine
